import Mathlib

/-!
Verification of the real-time session event broadcast system of the
meeting-coach repository, as implemented in
`backend/src/server/ws_server.py` (the Hub / Connection handler),
`backend/src/server/console_client.py` (the Client SDK) and
`backend/main.py` (the producer-side enqueue wrapper).

The embedding is shallow: Python dicts become association lists of JSON
values, the thread-safe `queue.Queue` becomes a FIFO list, the client
registry (`self.clients : Set`) becomes a duplicate-free list of client
identifiers, and each `await websocket.send(...)` is given an explicit
outcome (success, `ConnectionClosed`, or any other exception) supplied by
an environment function, matching the two `except` arms of `_safe_send`.
Wall-clock timestamps (`datetime.now().isoformat()` / `time.time()`) are
modelled by an abstract monotone integer clock passed in explicitly.
-/

/-- JSON values as produced by `json.loads` / consumed by `json.dumps`.
Numbers are modelled as integers (the code does no arithmetic on payload
numbers; they only flow through). -/
inductive JValue where
  | str (s : String)
  | num (n : Int)
  | bool (b : Bool)
  | null
  | arr (elems : List JValue)
  | obj (fields : List (String × JValue))

/-- A Python dict with string keys, in insertion order: the shape of every
event and command in the system. -/
abbrev Event := List (String × JValue)

/-- Python dict lookup `d.get(k)`: the value at the first matching key. -/
def dictGet (d : Event) (k : String) : Option JValue :=
  (d.find? (fun p => p.1 == k)).map (fun p => p.2)

/-- Python dict lookup with default, `d.get(k, v)`. -/
def dictGetD (d : Event) (k : String) (v : JValue) : JValue :=
  (dictGet d k).getD v

/-- Membership test `k in d` for a Python dict. -/
def hasKey (d : Event) (k : String) : Bool :=
  d.any (fun p => p.1 == k)

/-- Replace the value at the first occurrence of key `k`, keeping its
position, as Python dict assignment does for an existing key. -/
def replaceKey : Event → String → JValue → Event
  | [], _, _ => []
  | p :: rest, k, v => if p.1 == k then (k, v) :: rest else p :: replaceKey rest k v

/-- Python dict assignment `d[k] = v`: overwrite in place when the key
exists, append at the end otherwise. -/
def setKey (d : Event) (k : String) (v : JValue) : Event :=
  if hasKey d k then replaceKey d k v else d ++ [(k, v)]

mutual
/-- Serialization of one JSON value, following `json.dumps` with its
default separators. String escaping is not modelled (no payload in the
claims contains characters needing escapes). -/
def serializeValue : JValue → String
  | .str s => "\"" ++ s ++ "\""
  | .num n => toString n
  | .bool true => "true"
  | .bool false => "false"
  | .null => "null"
  | .arr xs => "[" ++ serializeArr xs ++ "]"
  | .obj fs => "\x7b" ++ serializeObj fs ++ "\x7d"

/-- Comma-separated serialization of a JSON array body. -/
def serializeArr : List JValue → String
  | [] => ""
  | [x] => serializeValue x
  | x :: rest => serializeValue x ++ ", " ++ serializeArr rest

/-- Comma-separated serialization of a JSON object body. -/
def serializeObj : List (String × JValue) → String
  | [] => ""
  | [(k, v)] => "\"" ++ k ++ "\": " ++ serializeValue v
  | (k, v) :: rest => "\"" ++ k ++ "\": " ++ serializeValue v ++ ", " ++ serializeObj rest
end

/-- Wire serialization of an event: `message = json.dumps(data)` in
`broadcast` and `send_to_client`. -/
def serialize (e : Event) : String := serializeValue (.obj e)

/-- Rendering of a value inside a Python f-string, as in
`f"Unknown message type: \x7bmsg_type\x7d"`: a `str` renders as its bare
content, other values as their Python `repr`-like text. -/
def jstr : JValue → String
  | .str s => s
  | .num n => toString n
  | .bool true => "True"
  | .bool false => "False"
  | .null => "None"
  | .arr xs => "[" ++ serializeArr xs ++ "]"
  | .obj fs => "\x7b" ++ serializeObj fs ++ "\x7d"

/-- Identity of one connected websocket (`WebSocketServerProtocol`). -/
abbrev ClientId := Nat

/-- Outcome of one `await websocket.send(message)` inside `_safe_send` /
`send_to_client`: success, `websockets.exceptions.ConnectionClosed`, or
any other exception. -/
inductive SendOutcome where
  | ok
  | closed
  | error
deriving DecidableEq, Repr

/-- Mutable state of `MeetingCoachWebSocketServer`: the client registry
`self.clients` (a set, embedded as a duplicate-free list), the FIFO
`self.message_queue`, and the `self.is_running` flag. -/
structure ServerState where
  clients : List ClientId
  message_queue : List Event
  is_running : Bool

/-- Registry removal `self.clients.discard(websocket)` performed by
`unregister_client`. -/
def unregister_client (s : ServerState) (c : ClientId) : ServerState :=
  { s with clients := s.clients.filter (fun d => d ≠ c) }

/-- One call of `broadcast(data)`: if the registry is empty, return at
once — the event is dropped before `json.dumps` runs. Otherwise the event
is serialized exactly once and `_safe_send` is attempted concurrently for
every registered client (`asyncio.gather` over a snapshot of
`self.clients`); a send that raises `ConnectionClosed` unregisters that
client, any other exception is only printed. The result is the new state,
the list of successful deliveries `(client, wire message)`, and the
serialized message when serialization happened at all. -/
def broadcast (out : ClientId → SendOutcome) (s : ServerState) (data : Event) :
    ServerState × List (ClientId × String) × Option String :=
  if s.clients = [] then
    (s, [], none)
  else
    let message := serialize data
    ({ s with clients := s.clients.filter (fun c => out c ≠ SendOutcome.closed) },
     (s.clients.filter (fun c => out c = SendOutcome.ok)).map (fun c => (c, message)),
     some message)

/-- The synchronous producer-facing entry point `broadcast_sync(data)`:
`self.message_queue.put(data)`, appending the event unchanged at the tail
of the FIFO queue. -/
def broadcast_sync (s : ServerState) (data : Event) : ServerState :=
  { s with message_queue := s.message_queue ++ [data] }

/-- Enqueue a whole sequence of events through `broadcast_sync`, in order. -/
def enqueueAll (s : ServerState) (es : List Event) : ServerState :=
  es.foldl broadcast_sync s

/-- The producer-side wrapper `MeetingCoach.broadcast_update(data)` in
`backend/main.py`: it assigns `data["timestamp"] = time.time()`
unconditionally and then hands the event to `broadcast_sync`. -/
def broadcast_update (now : Int) (s : ServerState) (data : Event) : ServerState :=
  broadcast_sync s (setKey data "timestamp" (.num now))

/-- The drain loop of `broadcast_worker` while `is_running` holds and the
queue is non-empty: pop the head of the FIFO queue, `await` one full
`broadcast` of it (so one event is completely fanned out before the next
is taken), and continue; `i` numbers the events so the send-outcome
environment can vary per event. Returns the final registry and the
concatenated delivery log. -/
def drainGo (out : Nat → ClientId → SendOutcome) :
    Nat → List ClientId → List Event → List ClientId × List (ClientId × String)
  | _, clients, [] => (clients, [])
  | i, clients, e :: rest =>
    let step := broadcast (out i) ⟨clients, rest, true⟩ e
    let next := drainGo out (i + 1) step.1.clients rest
    (next.1, step.2.1 ++ next.2)

/-- Drain an entire server state through `broadcast_worker`. -/
def drainQueue (out : Nat → ClientId → SendOutcome) (s : ServerState) :
    List ClientId × List (ClientId × String) :=
  drainGo out 0 s.clients s.message_queue

/-- Environment in which no send ever fails. -/
def allOk : Nat → ClientId → SendOutcome := fun _ _ => SendOutcome.ok

/-- Messages delivered to one particular client, in order, read off the
delivery log. -/
def deliveredTo (c : ClientId) (log : List (ClientId × String)) : List String :=
  log.filterMap (fun p => if p.1 = c then some p.2 else none)

/-- The `finally` clause of `run()`: the only shutdown action the server
takes is `self.is_running = False`; the queue and the registry are not
touched. -/
def run_finally (s : ServerState) : ServerState :=
  { s with is_running := false }

/-- One bounded unfolding of the `while self.is_running` loop of
`broadcast_worker`: with the flag cleared the loop body never runs, so no
queued event is broadcast; while the flag is set the loop takes events
from the queue head (`get`) and broadcasts each fully. `fuel` bounds the
number of iterations observed. -/
def broadcast_worker (out : Nat → ClientId → SendOutcome) :
    Nat → ServerState → Nat → ServerState × List (ClientId × String)
  | _, s, 0 => (s, [])
  | i, s, fuel + 1 =>
    if s.is_running then
      match s.message_queue with
      | [] => broadcast_worker out i s fuel
      | e :: rest =>
        let step := broadcast (out i) { s with message_queue := rest } e
        let next := broadcast_worker out (i + 1) step.1 fuel
        (next.1, step.2.1 ++ next.2)
    else
      (s, [])

/-- Result of `json.loads` on one inbound text frame: either the decode
raises `json.JSONDecodeError` (malformed JSON) or it yields a JSON object
(a dict). Frames parsing to a non-object JSON value take the generic
exception arm of the handler and are outside the scope of the claims. -/
inductive Frame where
  | malformed
  | obj (fields : Event)

/-- Python comparison `msg_type == s` of an arbitrary value against a
string literal: true exactly when the value is that very string. -/
def isType (t : JValue) (s : String) : Bool :=
  match t with
  | .str u => u == s
  | _ => false

/-- The command dispatch of `handle_client_message(websocket, message)`,
returning the list of reply events passed to `send_to_client` — every one
of them addressed to the originating websocket only. `now` is the abstract
clock read by `datetime.now().isoformat()` for the pong timestamp. -/
def handle_client_message (now : Int) (frame : Frame) : List Event :=
  match frame with
  | .malformed =>
    [[("type", .str "error"), ("message", .str "Invalid JSON")]]
  | .obj fields =>
    let msg_type := dictGetD fields "type" (.str "unknown")
    if isType msg_type "ping" then
      [[("type", .str "pong"), ("timestamp", .num now)]]
    else if isType msg_type "start_session" then
      [[("type", .str "session_status"), ("status", .str "started"),
        ("message", .str "Session started")]]
    else if isType msg_type "stop_session" then
      [[("type", .str "session_status"), ("status", .str "stopped"),
        ("message", .str "Session stopped")]]
    else
      [[("type", .str "error"),
        ("message", .str ("Unknown message type: " ++ jstr msg_type))]]

/-- One inbound frame processed by the per-connection handler in the
success-send case: the handler mutates no server state (registry, queue
and flag are untouched) and every reply goes to the sender alone. -/
def serverStepInbound (s : ServerState) (sender : ClientId) (now : Int)
    (frame : Frame) : ServerState × List (ClientId × Event) :=
  (s, (handle_client_message now frame).map (fun e => (sender, e)))

/-- Observable trace of `ConsoleWebSocketClient.connect(max_retries,
retry_delay)`: whether it returned `True`, how many connection attempts
were made, and how many times `asyncio.sleep(retry_delay)` ran (every
sleep passes the same fixed `retry_delay`). `succeeds i` tells whether the
`websockets.connect` call of iteration `i` succeeds. -/
structure ConnectTrace where
  success : Bool
  attempts : Nat
  sleeps : Nat
deriving DecidableEq, Repr

/-- The retry loop `for attempt in range(max_retries)` of `connect`,
started at iteration `attempt`: a successful attempt returns `True` at
once; a failed attempt sleeps and retries while `attempt < max_retries - 1`
and returns `False` on the last iteration. -/
def connectFrom (succeeds : Nat → Bool) (max_retries attempt : Nat) : ConnectTrace :=
  if _h : attempt < max_retries then
    if succeeds attempt then
      { success := true, attempts := 1, sleeps := 0 }
    else if attempt < max_retries - 1 then
      { success := (connectFrom succeeds max_retries (attempt + 1)).success,
        attempts := (connectFrom succeeds max_retries (attempt + 1)).attempts + 1,
        sleeps := (connectFrom succeeds max_retries (attempt + 1)).sleeps + 1 }
    else
      { success := false, attempts := 1, sleeps := 0 }
  else
    { success := false, attempts := 0, sleeps := 0 }
termination_by max_retries - attempt
decreasing_by omega

/-- Entry point `connect(max_retries, retry_delay)` of the client SDK. -/
def connect (succeeds : Nat → Bool) (max_retries : Nat) : ConnectTrace :=
  connectFrom succeeds max_retries 0

/-- Observable effect of one branch of the client SDK dispatch
`ConsoleWebSocketClient.handle_message(data)`. Console prints and calls
into the dashboard / timeline collaborators (external per the spec) are
recorded as effects carrying the exact argument values the source
extracts from the event; `timelineReset` records the reassignment
`self.timeline = EmotionalTimeline(...)`. -/
inductive ClientEffect where
  | printConnected (message : JValue)
  | initialize_display (config : JValue)
  | update_live_display
  | update_current_status (emotional_state social_cue confidence text coaching
      alert wpm filler_counts : JValue)
  | add_entry (emotional_state social_cue confidence text alert timestamp : JValue)
  | printTranscription (text wpm : JValue)
  | printEmotionUpdate (emotional_state confidence : JValue)
  | printAlert (message : JValue)
  | printSessionStatus (status message : JValue)
  | timelineReset
  | set_listening_state (is_listening : JValue)
  | load_entries (recent_entries : JValue)
  | printPong (timestamp : JValue)
  | printError (message : JValue)
  | printUnknownType (msg_type : JValue)
  | printUnknownData (data : Event)

/-- Effects that are nothing but console logging: no dashboard or timeline
collaborator is invoked and no client-held state changes. -/
def isLogOnly : ClientEffect → Bool
  | .printConnected _ => true
  | .printTranscription _ _ => true
  | .printEmotionUpdate _ _ => true
  | .printAlert _ => true
  | .printSessionStatus _ _ => true
  | .printPong _ => true
  | .printError _ => true
  | .printUnknownType _ => true
  | .printUnknownData _ => true
  | _ => false

/-- The known event-type enumeration dispatched by the client SDK: the ten
`elif` guards of `handle_message`. -/
def isKnownClientType (t : JValue) : Bool :=
  isType t "connection" || isType t "meeting_update" || isType t "transcription" ||
  isType t "emotion_update" || isType t "alert" || isType t "session_status" ||
  isType t "recording_status" || isType t "timeline_update" || isType t "pong" ||
  isType t "error"

/-- The dispatch of `ConsoleWebSocketClient.handle_message(data)` as the
ordered trace of its observable effects. Field extraction follows the
source `data.get(...)` calls with their literal defaults; a `data.get(k)`
with no default yields Python `None`, i.e. `.null`. -/
def handle_message (data : Event) : List ClientEffect :=
  let msg_type := dictGetD data "type" (.str "unknown")
  if isType msg_type "connection" then
    [.printConnected (dictGetD data "message" (.str "Connected")),
     .initialize_display (dictGetD data "config" .null),
     .update_live_display]
  else if isType msg_type "meeting_update" then
    let emotional_state := dictGetD data "emotional_state" (.str "unknown")
    let social_cue := dictGetD data "social_cue" (.str "unknown")
    let confidence := dictGetD data "confidence" (.num 0)
    let wpm := dictGetD data "wpm" (.num 0)
    let text := dictGetD data "text" (.str "")
    let alert := dictGetD data "alert" (.bool false)
    let filler_counts := dictGetD data "filler_counts" (.obj [])
    let coaching := dictGetD data "coaching" (.str "")
    let timestamp := dictGetD data "timestamp" .null
    [.update_current_status emotional_state social_cue confidence text coaching
        alert wpm filler_counts,
     .add_entry emotional_state social_cue confidence text alert timestamp,
     .update_live_display]
  else if isType msg_type "transcription" then
    [.printTranscription (dictGetD data "text" (.str ""))
        (dictGetD data "wpm" (.num 0))]
  else if isType msg_type "emotion_update" then
    [.printEmotionUpdate (dictGetD data "emotional_state" (.str "unknown"))
        (dictGetD data "confidence" (.num 0))]
  else if isType msg_type "alert" then
    [.printAlert (dictGetD data "message" (.str "Alert!"))]
  else if isType msg_type "session_status" then
    let status := dictGetD data "status" (.str "unknown")
    let message := dictGetD data "message" (.str "")
    if isType status "started" then
      [.printSessionStatus status message,
       .timelineReset,
       .initialize_display (dictGetD data "config" .null),
       .update_live_display]
    else
      [.printSessionStatus status message]
  else if isType msg_type "recording_status" then
    [.set_listening_state (dictGetD data "is_listening" (.bool false)),
     .update_live_display]
  else if isType msg_type "timeline_update" then
    [.load_entries (dictGetD data "recent_entries" (.arr [])),
     .update_live_display]
  else if isType msg_type "pong" then
    [.printPong (dictGetD data "timestamp" (.str ""))]
  else if isType msg_type "error" then
    [.printError (dictGetD data "message" (.str "Unknown error"))]
  else
    [.printUnknownType msg_type, .printUnknownData data]

theorem isType_true_iff (t : JValue) (s : String) : isType t s = true ↔ t = .str s := by
  cases t <;> simp [isType]

theorem dictGet_of_hasKey_false {d : Event} {k : String} (h : hasKey d k = false) :
    dictGet d k = none := by
  induction d with
  | nil => rfl
  | cons p rest ih =>
    simp [hasKey, List.any_cons] at h
    simp [dictGet, List.find?_cons, h.1]
    have := ih (by simp [hasKey]; exact h.2)
    simpa [dictGet] using this

theorem dictGet_append_single {d : Event} {k : String} (h : hasKey d k = false)
    (v : JValue) : dictGet (d ++ [(k, v)]) k = some v := by
  induction d with
  | nil => simp [dictGet, List.find?_cons]
  | cons p rest ih =>
    simp [hasKey, List.any_cons] at h
    simp [dictGet, List.find?_cons, h.1]
    have := ih (by simp [hasKey]; exact h.2)
    simpa [dictGet] using this

theorem dictGet_replaceKey {d : Event} {k : String} (h : hasKey d k = true)
    (v : JValue) : dictGet (replaceKey d k v) k = some v := by
  induction d with
  | nil => simp [hasKey] at h
  | cons p rest ih =>
    by_cases hp : p.1 == k
    · simp [replaceKey, hp, dictGet, List.find?_cons]
    · simp [hasKey, List.any_cons, hp] at h
      simp [replaceKey, hp, dictGet, List.find?_cons]
      have := ih (by simp [hasKey, h])
      simpa [dictGet, hp] using this

theorem dictGet_setKey (d : Event) (k : String) (v : JValue) :
    dictGet (setKey d k v) k = some v := by
  by_cases h : hasKey d k
  · simp [setKey, h, dictGet_replaceKey h]
  · simp [setKey, h, dictGet_append_single (Bool.eq_false_iff.mpr h) v]

/-- C10: calling `broadcast` while the client registry is empty is a silent
no-op — the guard `if not self.clients: return` fires before `json.dumps`
runs, so the event is discarded unserialized, nothing is delivered, no
error is reported, and the whole server state (registry, queue, running
flag) is returned unchanged. -/
theorem broadcast_empty_registry_silent (out : ClientId → SendOutcome)
    (s : ServerState) (data : Event) (h : s.clients = []) :
    broadcast out s data = (s, [], none) := by
  simp [broadcast, h]

/-- Witness: the empty-registry no-op at a concrete state and event. -/
theorem broadcast_empty_registry_silent_witness :
    broadcast (fun _ => SendOutcome.ok) ⟨[], [[("type", JValue.str "x")]], true⟩
      [("type", JValue.str "meeting_update")] =
      (⟨[], [[("type", JValue.str "x")]], true⟩, [], none) :=
  broadcast_empty_registry_silent _ _ _ rfl

/-- C4 counterexample: an event enqueued through `broadcast_sync` with no
timestamp field reaches `broadcast` unchanged and goes out on the wire
without any timestamp — the Hub never fills one in. -/
theorem hub_timestamp_fill_counterexample :
    (broadcast_sync ⟨[0], [], true⟩ [("type", JValue.str "meeting_update")]).message_queue
      = [[("type", JValue.str "meeting_update")]]
    ∧ dictGet [("type", JValue.str "meeting_update")] "timestamp" = none
    ∧ (drainQueue allOk (broadcast_sync ⟨[0], [], true⟩
        [("type", JValue.str "meeting_update")])).2
      = [(0, "\x7b\"type\": \"meeting_update\"\x7d")] :=
  ⟨rfl, rfl, rfl⟩

/-- C4 amended: the timestamp is filled by the producer-side wrapper
`broadcast_update` in `backend/main.py`, not by the Hub, and it is
assigned unconditionally (overwriting any timestamp already present);
the enqueue entry point `broadcast_sync` itself appends the event to the
queue completely unchanged. Every event enqueued through
`broadcast_update` therefore carries a timestamp. -/
theorem timestamp_filled_by_producer_wrapper (s : ServerState) (data : Event)
    (now : Int) :
    (broadcast_update now s data).message_queue
        = s.message_queue ++ [setKey data "timestamp" (.num now)]
    ∧ dictGet (setKey data "timestamp" (.num now)) "timestamp" = some (.num now)
    ∧ (broadcast_sync s data).message_queue = s.message_queue ++ [data] :=
  ⟨rfl, dictGet_setKey data "timestamp" (.num now), rfl⟩

/-- C5 counterexample: the `session_status` replies to `start_session` and
`stop_session` carry only `type`, `status` and `message` — the required
`timestamp` field is absent from both. -/
theorem session_status_timestamp_counterexample :
    handle_client_message 5 (.obj [("type", JValue.str "start_session")])
      = [[("type", JValue.str "session_status"), ("status", JValue.str "started"),
          ("message", JValue.str "Session started")]]
    ∧ dictGet [("type", JValue.str "session_status"), ("status", JValue.str "started"),
          ("message", JValue.str "Session started")] "timestamp" = none
    ∧ handle_client_message 5 (.obj [("type", JValue.str "stop_session")])
      = [[("type", JValue.str "session_status"), ("status", JValue.str "stopped"),
          ("message", JValue.str "Session stopped")]]
    ∧ dictGet [("type", JValue.str "session_status"), ("status", JValue.str "stopped"),
          ("message", JValue.str "Session stopped")] "timestamp" = none :=
  ⟨rfl, rfl, rfl, rfl⟩

/-- C5 amended: every `start_session` or `stop_session` command yields
exactly one `session_status` event sent directly to the originating
connection only — the server state (registry, queue, session flag) is
untouched and no other client receives anything — and that event carries
the fields `status` and `message` with the expected values, but no
timestamp. -/
theorem session_command_direct_reply (s : ServerState) (sender : ClientId)
    (now : Int) (fields : Event) :
    (isType (dictGetD fields "type" (.str "unknown")) "start_session" = true →
      serverStepInbound s sender now (.obj fields) =
        (s, [(sender, [("type", .str "session_status"), ("status", .str "started"),
              ("message", .str "Session started")])]))
    ∧ (isType (dictGetD fields "type" (.str "unknown")) "stop_session" = true →
      serverStepInbound s sender now (.obj fields) =
        (s, [(sender, [("type", .str "session_status"), ("status", .str "stopped"),
              ("message", .str "Session stopped")])])) := by
  constructor
  · intro h
    have ht := (isType_true_iff _ _).mp h
    simp [serverStepInbound, handle_client_message, ht, isType]
  · intro h
    have ht := (isType_true_iff _ _).mp h
    simp [serverStepInbound, handle_client_message, ht, isType]

/-- Witness: a concrete `start_session` command produces the single direct
`session_status` reply. -/
theorem session_command_direct_reply_witness :
    serverStepInbound ⟨[7], [], true⟩ 7 5 (.obj [("type", JValue.str "start_session")])
      = (⟨[7], [], true⟩, [(7, [("type", JValue.str "session_status"),
          ("status", JValue.str "started"), ("message", JValue.str "Session started")])]) :=
  (session_command_direct_reply ⟨[7], [], true⟩ 7 5
    [("type", JValue.str "start_session")]).1 rfl

/-- C6: a malformed-JSON frame, or a JSON object whose `type` is none of
the recognized commands, draws exactly one `error` event sent directly to
the sender alone (for an unrecognized type the message names that type);
the server state is untouched, so the connection stays registered and
open and nothing is broadcast to other clients. -/
theorem unrecognized_frame_error_reply (s : ServerState) (sender : ClientId)
    (now : Int) (fields : Event)
    (h1 : isType (dictGetD fields "type" (.str "unknown")) "ping" = false)
    (h2 : isType (dictGetD fields "type" (.str "unknown")) "start_session" = false)
    (h3 : isType (dictGetD fields "type" (.str "unknown")) "stop_session" = false) :
    serverStepInbound s sender now (.obj fields)
      = (s, [(sender, [("type", .str "error"),
          ("message", .str ("Unknown message type: "
            ++ jstr (dictGetD fields "type" (.str "unknown"))))])])
    ∧ serverStepInbound s sender now .malformed
      = (s, [(sender, [("type", .str "error"),
          ("message", .str "Invalid JSON")])]) := by
  exact ⟨by simp [serverStepInbound, handle_client_message, h1, h2, h3], rfl⟩

/-- Witness: the command `\x7b"type": "frobnicate"\x7d` yields one error
reply naming `frobnicate`, and a malformed frame yields one Invalid JSON
reply, each to the sender only. -/
theorem unrecognized_frame_error_reply_witness :
    serverStepInbound ⟨[2], [], true⟩ 2 9 (.obj [("type", JValue.str "frobnicate")])
      = (⟨[2], [], true⟩, [(2, [("type", JValue.str "error"),
          ("message", JValue.str "Unknown message type: frobnicate")])])
    ∧ serverStepInbound ⟨[2], [], true⟩ 2 9 Frame.malformed
      = (⟨[2], [], true⟩, [(2, [("type", JValue.str "error"),
          ("message", JValue.str "Invalid JSON")])]) :=
  unrecognized_frame_error_reply ⟨[2], [], true⟩ 2 9
    [("type", JValue.str "frobnicate")] rfl rfl rfl

/-- C7: a `ping` command yields exactly one `pong` event carrying a
timestamp, sent directly to the originating connection only (server state
untouched, nothing broadcast), and when the handler runs no earlier than
the ping was sent, the pong timestamp is at least the send time. -/
theorem ping_pong_reply (s : ServerState) (sender : ClientId)
    (now sendTime : Int) (fields : Event)
    (hping : isType (dictGetD fields "type" (.str "unknown")) "ping" = true)
    (hsent : sendTime ≤ now) :
    serverStepInbound s sender now (.obj fields)
      = (s, [(sender, [("type", .str "pong"), ("timestamp", .num now)])])
    ∧ ∃ ts : Int, dictGet [("type", JValue.str "pong"), ("timestamp", JValue.num now)]
        "timestamp" = some (.num ts) ∧ sendTime ≤ ts := by
  have ht := (isType_true_iff _ _).mp hping
  exact ⟨by simp [serverStepInbound, handle_client_message, ht, isType],
    ⟨now, rfl, hsent⟩⟩

/-- Witness: a concrete ping sent at time 3 and handled at time 10 yields
the single direct pong with timestamp 10. -/
theorem ping_pong_reply_witness :
    serverStepInbound ⟨[1], [], true⟩ 1 10 (.obj [("type", JValue.str "ping")])
      = (⟨[1], [], true⟩, [(1, [("type", JValue.str "pong"),
          ("timestamp", JValue.num 10)])])
    ∧ ∃ ts : Int, dictGet [("type", JValue.str "pong"), ("timestamp", JValue.num 10)]
        "timestamp" = some (.num ts) ∧ (3 : Int) ≤ ts :=
  ping_pong_reply ⟨[1], [], true⟩ 1 10 3 [("type", JValue.str "ping")] rfl (by decide)

/-- C3 counterexample: with one event still queued and one client still
registered, the shutdown path of `run()` leaves the queue and the
registry exactly as they were — the queued event is never broadcast and
no connection is closed by the Hub. -/
theorem shutdown_drain_counterexample :
    run_finally ⟨[0], [[("type", JValue.str "alert")]], true⟩
      = ⟨[0], [[("type", JValue.str "alert")]], false⟩
    ∧ broadcast_worker allOk 0 (run_finally ⟨[0], [[("type", JValue.str "alert")]], true⟩) 1
      = (⟨[0], [[("type", JValue.str "alert")]], false⟩, []) :=
  ⟨rfl, rfl⟩

/-- C3 amended: the only shutdown action of `run()` is clearing
`is_running` in its `finally` clause; the broadcast worker then performs
no further iteration, so events remaining in the queue are never
broadcast, and the Hub closes no connection — queue and registry are left
exactly as they were. -/
theorem shutdown_no_drain_no_close (s : ServerState)
    (out : Nat → ClientId → SendOutcome) (i fuel : Nat) :
    broadcast_worker out i (run_finally s) fuel = (run_finally s, [])
    ∧ (run_finally s).message_queue = s.message_queue
    ∧ (run_finally s).clients = s.clients
    ∧ (run_finally s).is_running = false := by
  refine ⟨?_, rfl, rfl, rfl⟩
  cases fuel <;> simp [broadcast_worker, run_finally]

/-- C8: the client SDK dispatch `handle_message` is total — for any event
dict whose `type` is outside the known enumeration (including a missing
`type`, which defaults to the unrecognized string `unknown`), it returns
normally after emitting exactly the two unknown-type log lines, invoking
no dashboard or timeline collaborator and changing nothing beyond the log
output. -/
theorem handle_message_unknown_type_total (data : Event)
    (h : isKnownClientType (dictGetD data "type" (.str "unknown")) = false) :
    handle_message data
      = [.printUnknownType (dictGetD data "type" (.str "unknown")),
         .printUnknownData data]
    ∧ (handle_message data).all isLogOnly = true := by
  rw [isKnownClientType] at h
  repeat rw [Bool.or_eq_false_iff] at h
  obtain ⟨⟨⟨⟨⟨⟨⟨⟨⟨h1, h2⟩, h3⟩, h4⟩, h5⟩, h6⟩, h7⟩, h8⟩, h9⟩, h10⟩ := h
  refine ⟨?_, ?_⟩
  · simp [handle_message, h1, h2, h3, h4, h5, h6, h7, h8, h9, h10]
  · simp [handle_message, h1, h2, h3, h4, h5, h6, h7, h8, h9, h10, isLogOnly]

/-- Witness: an event with no `type` field at all is logged and ignored by
the client SDK. -/
theorem handle_message_unknown_type_total_witness :
    handle_message [("foo", JValue.num 1)]
      = [.printUnknownType (JValue.str "unknown"),
         .printUnknownData [("foo", JValue.num 1)]]
    ∧ (handle_message [("foo", JValue.num 1)]).all isLogOnly = true :=
  handle_message_unknown_type_total [("foo", JValue.num 1)] rfl
theorem connectFrom_spec (succeeds : Nat → Bool) :
    ∀ d max_retries attempt, max_retries - attempt = d → attempt < max_retries →
    (connectFrom succeeds max_retries attempt).attempts ≤ max_retries - attempt
    ∧ ((connectFrom succeeds max_retries attempt).success = true ↔
        ∃ k, attempt ≤ k ∧ k < max_retries ∧ succeeds k = true)
    ∧ (∀ k, attempt ≤ k → k < max_retries → succeeds k = true →
        (∀ j, attempt ≤ j → j < k → succeeds j = false) →
        (connectFrom succeeds max_retries attempt).success = true
        ∧ (connectFrom succeeds max_retries attempt).attempts = k - attempt + 1)
    ∧ ((∀ k, attempt ≤ k → k < max_retries → succeeds k = false) →
        (connectFrom succeeds max_retries attempt).success = false
        ∧ (connectFrom succeeds max_retries attempt).attempts = max_retries - attempt)
    ∧ (connectFrom succeeds max_retries attempt).sleeps + 1
        = (connectFrom succeeds max_retries attempt).attempts := by
  intro d
  induction d with
  | zero => intro max attempt hd hlt; exact absurd hlt (by omega)
  | succ n ih =>
    intro max attempt hd hlt
    rw [connectFrom.eq_def, dif_pos hlt]
    cases hs : succeeds attempt with
    | true =>
      rw [if_pos rfl]
      refine ⟨by show 1 ≤ max - attempt; omega, ?_, ?_, ?_, rfl⟩
      · exact ⟨fun _ => ⟨attempt, le_refl _, hlt, hs⟩, fun _ => rfl⟩
      · intro k hk1 hk2 hk3 hfirst
        have hka : k = attempt := by
          by_contra hne
          have hlt2 : attempt < k := by omega
          have hf := hfirst attempt (le_refl _) hlt2
          rw [hs] at hf
          exact absurd hf (by decide)
        subst hka
        exact ⟨rfl, by show 1 = k - k + 1; omega⟩
      · intro hall
        have := hall attempt (le_refl _) hlt
        rw [hs] at this
        exact absurd this (by decide)
    | false =>
      rw [if_neg (by simp [hs])]
      by_cases h2 : attempt < max - 1
      · rw [if_pos h2]
        obtain ⟨ia, ib, ic, idd, ie⟩ := ih max (attempt + 1) (by omega) (by omega)
        refine ⟨?_, ?_, ?_, ?_, ?_⟩
        · show (connectFrom succeeds max (attempt + 1)).attempts + 1 ≤ max - attempt
          omega
        · show (connectFrom succeeds max (attempt + 1)).success = true ↔ _
          constructor
          · intro hsucc
            obtain ⟨k, hk1, hk2, hk3⟩ := ib.mp hsucc
            exact ⟨k, by omega, hk2, hk3⟩
          · rintro ⟨k, hk1, hk2, hk3⟩
            apply ib.mpr
            have hk1' : attempt + 1 ≤ k := by
              rcases Nat.eq_or_lt_of_le hk1 with he | hl
              · exfalso; rw [← he, hs] at hk3; exact absurd hk3 (by decide)
              · omega
            exact ⟨k, hk1', hk2, hk3⟩
        · intro k hk1 hk2 hk3 hfirst
          have hk1' : attempt + 1 ≤ k := by
            rcases Nat.eq_or_lt_of_le hk1 with he | hl
            · exfalso; rw [← he, hs] at hk3; exact absurd hk3 (by decide)
            · omega
          obtain ⟨cs, ca⟩ := ic k hk1' hk2 hk3 (fun j hj1 hj2 => hfirst j (by omega) hj2)
          refine ⟨cs, ?_⟩
          show (connectFrom succeeds max (attempt + 1)).attempts + 1 = k - attempt + 1
          clear ia ib ic idd ie ih hfirst cs hs
          rw [ca]; omega
        · intro hall
          obtain ⟨ds, da⟩ := idd (fun k hk1 hk2 => hall k (by omega) hk2)
          refine ⟨ds, ?_⟩
          show (connectFrom succeeds max (attempt + 1)).attempts + 1 = max - attempt
          clear ia ib ic idd ie ih hall ds hs
          rw [da]; omega
        · show (connectFrom succeeds max (attempt + 1)).sleeps + 1 + 1
            = (connectFrom succeeds max (attempt + 1)).attempts + 1
          rw [ie]
      · rw [if_neg h2]
        have hmax : max = attempt + 1 := by omega
        refine ⟨by show 1 ≤ max - attempt; omega, ?_, ?_, ?_, rfl⟩
        · constructor
          · intro hcon; exact absurd hcon (by decide)
          · rintro ⟨k, hk1, hk2, hk3⟩
            have hek : k = attempt := by omega
            rw [hek, hs] at hk3
            exact absurd hk3 (by decide)
        · intro k hk1 hk2 hk3 _
          have hek : k = attempt := by omega
          rw [hek, hs] at hk3
          exact absurd hk3 (by decide)
        · intro _
          exact ⟨rfl, by show 1 = max - attempt; omega⟩

/-- C9: for every `max_retries ≥ 1`, `connect` makes at most `max_retries`
connection attempts with one fixed-duration sleep between consecutive
attempts (sleeps = attempts - 1), returns `True` exactly when some attempt
within the bound succeeds — and does so right at the first success — and
returns `False` (rather than retrying further or raising) once all
`max_retries` attempts have failed. -/
theorem connect_bounded_retry (succeeds : Nat → Bool) (max_retries : Nat)
    (h : 1 ≤ max_retries) :
    (connect succeeds max_retries).attempts ≤ max_retries
    ∧ ((connect succeeds max_retries).success = true ↔
        ∃ k, k < max_retries ∧ succeeds k = true)
    ∧ (∀ k, k < max_retries → succeeds k = true →
        (∀ j, j < k → succeeds j = false) →
        (connect succeeds max_retries).success = true
        ∧ (connect succeeds max_retries).attempts = k + 1)
    ∧ ((∀ k, k < max_retries → succeeds k = false) →
        (connect succeeds max_retries).success = false
        ∧ (connect succeeds max_retries).attempts = max_retries)
    ∧ (connect succeeds max_retries).sleeps + 1
        = (connect succeeds max_retries).attempts := by
  obtain ⟨a, b, c, d, e⟩ :=
    connectFrom_spec succeeds (max_retries - 0) max_retries 0 rfl (by omega)
  rw [connect]
  refine ⟨by omega, ?_, ?_, ?_, e⟩
  · rw [b]
    constructor
    · rintro ⟨k, _, hk2, hk3⟩; exact ⟨k, hk2, hk3⟩
    · rintro ⟨k, hk2, hk3⟩; exact ⟨k, Nat.zero_le k, hk2, hk3⟩
  · intro k hk hsk hfirst
    obtain ⟨cs, ca⟩ := c k (Nat.zero_le k) hk hsk (fun j _ hj => hfirst j hj)
    refine ⟨cs, ?_⟩
    clear a b c d e cs
    omega
  · intro hall
    obtain ⟨ds, da⟩ := d (fun k _ hk => hall k hk)
    refine ⟨ds, ?_⟩
    clear a b c d e ds
    omega

/-- Witness: with attempts failing at index 0 and succeeding at index 1,
`connect` with `max_retries = 3` succeeds on the second attempt after one
sleep; the all-fail bound is also exercised. -/
theorem connect_bounded_retry_witness :
    ((connect (fun k => k == 1) 3).attempts ≤ 3
      ∧ (connect (fun k => k == 1) 3).success = true
      ∧ (connect (fun k => k == 1) 3).attempts = 2)
    ∧ ((connect (fun _ => false) 3).success = false
      ∧ (connect (fun _ => false) 3).attempts = 3) := by
  have h1 := connect_bounded_retry (fun k => k == 1) 3 (by decide)
  have h2 := connect_bounded_retry (fun _ => false) 3 (by decide)
  have hfirst := h1.2.2.1 1 (by decide) (by decide) (by decide)
  exact ⟨⟨h1.1, hfirst.1, hfirst.2⟩, h2.2.2.2.1 (fun k _ => rfl)⟩

theorem deliveredTo_append (c : ClientId) (a b : List (ClientId × String)) :
    deliveredTo c (a ++ b) = deliveredTo c a ++ deliveredTo c b := by
  simp [deliveredTo, List.filterMap_append]

theorem deliveredTo_cons (c : ClientId) (p : ClientId × String)
    (l : List (ClientId × String)) :
    deliveredTo c (p :: l)
      = if p.1 = c then p.2 :: deliveredTo c l else deliveredTo c l := by
  by_cases h : p.1 = c <;> simp [deliveredTo, List.filterMap_cons, h]

theorem deliveredTo_map_not_mem {c : ClientId} {l : List ClientId} (h : c ∉ l)
    (m : String) : deliveredTo c (l.map (fun d => (d, m))) = [] := by
  induction l with
  | nil => rfl
  | cons d rest ih =>
    rw [List.map_cons, deliveredTo_cons]
    have hdc : d ≠ c := fun he => h (he ▸ List.mem_cons_self d rest)
    simp only [hdc, if_false]
    exact ih (fun hm => h (List.mem_cons_of_mem d hm))

theorem deliveredTo_map_self {c : ClientId} {l : List ClientId} (hn : l.Nodup)
    (hc : c ∈ l) (m : String) :
    deliveredTo c (l.map (fun d => (d, m))) = [m] := by
  induction l with
  | nil => cases hc
  | cons d rest ih =>
    obtain ⟨hdr, hnr⟩ := List.nodup_cons.mp hn
    rw [List.map_cons, deliveredTo_cons]
    rcases List.mem_cons.mp hc with he | hm
    · subst he
      simp [deliveredTo_map_not_mem hdr]
    · have hdc : d ≠ c := fun he => hdr (he ▸ hm)
      simp only [hdc, if_false]
      exact ih hnr hm

theorem filter_ne_closed_of_ok {out : ClientId → SendOutcome} {l : List ClientId}
    (h : ∀ d ∈ l, out d = SendOutcome.ok) :
    l.filter (fun c => out c ≠ SendOutcome.closed) = l := by
  apply List.filter_eq_self.mpr
  intro a ha
  simp [h a ha]

theorem filter_eq_ok_of_ok {out : ClientId → SendOutcome} {l : List ClientId}
    (h : ∀ d ∈ l, out d = SendOutcome.ok) :
    l.filter (fun c => out c = SendOutcome.ok) = l := by
  apply List.filter_eq_self.mpr
  intro a ha
  simp [h a ha]

theorem drainGo_ok (out : Nat → ClientId → SendOutcome) :
    ∀ (es : List Event) (i : Nat) (clients : List ClientId),
    (∀ j d, d ∈ clients → out j d = SendOutcome.ok) →
    (drainGo out i clients es).1 = clients
    ∧ (∀ c, clients.Nodup → c ∈ clients →
        deliveredTo c (drainGo out i clients es).2 = es.map serialize)
    ∧ (∀ c, c ∉ clients → deliveredTo c (drainGo out i clients es).2 = []) := by
  intro es
  induction es with
  | nil => exact fun i clients _ => ⟨rfl, fun c _ _ => rfl, fun c _ => rfl⟩
  | cons e rest ih =>
    intro i clients h
    by_cases hcl : clients = []
    · subst hcl
      obtain ⟨ih1, _, ih3⟩ := ih (i + 1) [] h
      refine ⟨?_, fun c _ hc => absurd hc (List.not_mem_nil c), fun c _ => ?_⟩
      · simpa [drainGo, broadcast] using ih1
      · simpa [drainGo, broadcast, deliveredTo] using ih3 c (List.not_mem_nil c)
    · have hb : broadcast (out i) ⟨clients, rest, true⟩ e
          = (⟨clients.filter (fun c => out i c ≠ SendOutcome.closed), rest, true⟩,
             (clients.filter (fun c => out i c = SendOutcome.ok)).map
               (fun c => (c, serialize e)),
             some (serialize e)) := by
        simp [broadcast, hcl]
      have hfe : clients.filter (fun c => out i c ≠ SendOutcome.closed) = clients :=
        filter_ne_closed_of_ok (fun d hd => h i d hd)
      have hfo : clients.filter (fun c => out i c = SendOutcome.ok) = clients :=
        filter_eq_ok_of_ok (fun d hd => h i d hd)
      obtain ⟨ih1, ih2, ih3⟩ := ih (i + 1) clients h
      have hgo : drainGo out i clients (e :: rest)
          = ((drainGo out (i + 1) clients rest).1,
             clients.map (fun c => (c, serialize e))
               ++ (drainGo out (i + 1) clients rest).2) := by
        simp only [drainGo, hb, hfe, hfo]
      rw [hgo]
      refine ⟨ih1, fun c hn hc => ?_, fun c hc => ?_⟩
      · rw [deliveredTo_append, deliveredTo_map_self hn hc, ih2 c hn hc,
          List.map_cons]
        rfl
      · rw [deliveredTo_append, deliveredTo_map_not_mem hc, ih3 c hc]
        rfl

theorem enqueueAll_eq (clients : List ClientId) (b : Bool) :
    ∀ (es q : List Event), enqueueAll ⟨clients, q, b⟩ es = ⟨clients, q ++ es, b⟩ := by
  intro es
  induction es with
  | nil => intro q; simp [enqueueAll]
  | cons e rest ih =>
    intro q
    have h1 : enqueueAll ⟨clients, q, b⟩ (e :: rest)
        = enqueueAll ⟨clients, q ++ [e], b⟩ rest := rfl
    rw [h1, ih (q ++ [e]), List.append_assoc]
    rfl

/-- C1: for every sequence of events enqueued through `broadcast_sync` and
drained by the broadcast worker with no send failures, every client
registered for the whole sequence receives every event, and the per-client
delivery order equals the enqueue order — the queue is drained FIFO and
each event is fully broadcast before the next is taken; the registry is
unchanged throughout. -/
theorem fifo_broadcast_order (clients : List ClientId) (es : List Event)
    (c : ClientId) (hn : clients.Nodup) (hc : c ∈ clients) :
    deliveredTo c (drainQueue allOk (enqueueAll ⟨clients, [], true⟩ es)).2
      = es.map serialize
    ∧ (drainQueue allOk (enqueueAll ⟨clients, [], true⟩ es)).1 = clients := by
  rw [enqueueAll_eq clients true es []]
  obtain ⟨h1, h2, _⟩ := drainGo_ok allOk es 0 clients (fun _ _ _ => rfl)
  exact ⟨h2 c hn hc, h1⟩

/-- Witness: two clients, three enqueued events, no failures — client 3
receives the three serialized events in enqueue order and the registry is
unchanged. -/
theorem fifo_broadcast_order_witness :
    deliveredTo 3 (drainQueue allOk (enqueueAll ⟨[3, 5], [], true⟩
        [[("type", JValue.str "a")], [("type", JValue.str "b")],
         [("type", JValue.str "c")]])).2
      = ["\x7b\"type\": \"a\"\x7d", "\x7b\"type\": \"b\"\x7d", "\x7b\"type\": \"c\"\x7d"]
    ∧ (drainQueue allOk (enqueueAll ⟨[3, 5], [], true⟩
        [[("type", JValue.str "a")], [("type", JValue.str "b")],
         [("type", JValue.str "c")]])).1 = [3, 5] :=
  fifo_broadcast_order [3, 5]
    [[("type", JValue.str "a")], [("type", JValue.str "b")],
     [("type", JValue.str "c")]] 3 (by decide) (by decide)

theorem drainGo_evict (out : Nat → ClientId → SendOutcome) (c : ClientId) (k : Nat)
    (hok_pre : ∀ j, j < k → out j c = SendOutcome.ok)
    (hfail : out k c = SendOutcome.closed)
    (hothers : ∀ j d, d ≠ c → out j d = SendOutcome.ok) :
    ∀ (es : List Event) (i : Nat) (clients : List ClientId),
    clients.Nodup → c ∈ clients → i ≤ k → k - i < es.length →
    (drainGo out i clients es).1 = clients.filter (fun d => d ≠ c)
    ∧ deliveredTo c (drainGo out i clients es).2 = (es.take (k - i)).map serialize
    ∧ (∀ d, d ∈ clients → d ≠ c →
        deliveredTo d (drainGo out i clients es).2 = es.map serialize) := by
  intro es
  induction es with
  | nil => intro i clients _ _ _ hlen; exact absurd hlen (by simp)
  | cons e rest ih =>
    intro i clients hn hc hik hlen
    have hcl : clients ≠ [] := List.ne_nil_of_mem hc
    rcases Nat.lt_or_ge i k with hik2 | hik2
    · have hout : ∀ d ∈ clients, out i d = SendOutcome.ok := by
        intro d hd
        by_cases hdc : d = c
        · subst hdc; exact hok_pre i hik2
        · exact hothers i d hdc
      have hb : broadcast (out i) ⟨clients, rest, true⟩ e
          = (⟨clients.filter (fun x => out i x ≠ SendOutcome.closed), rest, true⟩,
             (clients.filter (fun x => out i x = SendOutcome.ok)).map
               (fun x => (x, serialize e)),
             some (serialize e)) := by
        simp [broadcast, hcl]
      have hfe := filter_ne_closed_of_ok hout
      have hfo := filter_eq_ok_of_ok hout
      have hgo : drainGo out i clients (e :: rest)
          = ((drainGo out (i + 1) clients rest).1,
             clients.map (fun x => (x, serialize e))
               ++ (drainGo out (i + 1) clients rest).2) := by
        simp only [drainGo, hb, hfe, hfo]
      have hlen2 : k - (i + 1) < rest.length := by
        simp only [List.length_cons] at hlen
        omega
      obtain ⟨ih1, ih2, ih3⟩ := ih (i + 1) clients hn hc (by omega) hlen2
      rw [hgo]
      refine ⟨ih1, ?_, ?_⟩
      · rw [deliveredTo_append, deliveredTo_map_self hn hc, ih2]
        have hki : k - i = (k - (i + 1)) + 1 := by omega
        rw [hki, List.take_succ_cons, List.map_cons]
        rfl
      · intro d hd hdc
        rw [deliveredTo_append, deliveredTo_map_self hn hd, ih3 d hd hdc,
          List.map_cons]
        rfl
    · have hik3 : i = k := by omega
      subst hik3
      have hb : broadcast (out i) ⟨clients, rest, true⟩ e
          = (⟨clients.filter (fun x => out i x ≠ SendOutcome.closed), rest, true⟩,
             (clients.filter (fun x => out i x = SendOutcome.ok)).map
               (fun x => (x, serialize e)),
             some (serialize e)) := by
        simp [broadcast, hcl]
      have hf1 : clients.filter (fun x => out i x ≠ SendOutcome.closed)
          = clients.filter (fun d => d ≠ c) := by
        apply List.filter_congr
        intro d _
        by_cases hdc : d = c
        · subst hdc; simp [hfail]
        · simp [hothers i d hdc, hdc]
      have hf2 : clients.filter (fun x => out i x = SendOutcome.ok)
          = clients.filter (fun d => d ≠ c) := by
        apply List.filter_congr
        intro d _
        by_cases hdc : d = c
        · subst hdc; simp [hfail]
        · simp [hothers i d hdc, hdc]
      have hgo : drainGo out i clients (e :: rest)
          = ((drainGo out (i + 1) (clients.filter (fun d => d ≠ c)) rest).1,
             (clients.filter (fun d => d ≠ c)).map (fun x => (x, serialize e))
               ++ (drainGo out (i + 1) (clients.filter (fun d => d ≠ c)) rest).2) := by
        simp only [drainGo, hb, hf1, hf2]
      obtain ⟨p1, p2, p3⟩ := drainGo_ok out rest (i + 1)
        (clients.filter (fun d => d ≠ c))
        (fun j d hd => hothers j d (by simpa using (List.mem_filter.mp hd).2))
      rw [hgo]
      have hcnot : c ∉ clients.filter (fun d => d ≠ c) := by simp
      refine ⟨p1, ?_, ?_⟩
      · rw [deliveredTo_append, deliveredTo_map_not_mem hcnot, p3 c hcnot]
        simp
      · intro d hd hdc
        have hdf : d ∈ clients.filter (fun x => x ≠ c) :=
          List.mem_filter.mpr ⟨hd, by simp [hdc]⟩
        have hnf : (clients.filter (fun x => x ≠ c)).Nodup := hn.filter _
        rw [deliveredTo_append, deliveredTo_map_self hnf hdf, p2 d hnf hdf,
          List.map_cons]
        rfl

/-- C2 counterexample: a client whose send fails with a generic (non
`ConnectionClosed`) exception during the broadcast of the first event is
NOT removed from the registry — `_safe_send` only prints — and it still
receives the event enqueued after the failing one, contradicting the
claim that any send failure (closed or erroring) evicts the client. -/
theorem send_failure_evicts_counterexample :
    (drainGo (fun i d => if i = 0 ∧ d = 0 then SendOutcome.error else SendOutcome.ok)
        0 [0] [[("type", JValue.str "a")], [("type", JValue.str "b")]]).1 = [0]
    ∧ deliveredTo 0 (drainGo
        (fun i d => if i = 0 ∧ d = 0 then SendOutcome.error else SendOutcome.ok)
        0 [0] [[("type", JValue.str "a")], [("type", JValue.str "b")]]).2
      = ["\x7b\"type\": \"b\"\x7d"] :=
  ⟨rfl, rfl⟩

/-- C2 amended: eviction happens exactly for sends that raise
`ConnectionClosed`. If the send of the event at queue position `k` to
client `c` raises `ConnectionClosed` (its earlier sends having succeeded),
then `c` is removed from the registry, `c` receives exactly the events
before position `k` and nothing from `k` on, and every other client keeps
receiving every event and stays registered. A client whose send fails
with any other exception is not evicted (see the counterexample). -/
theorem send_failure_evicts_closed (clients : List ClientId) (es : List Event)
    (c : ClientId) (k : Nat) (out : Nat → ClientId → SendOutcome)
    (hn : clients.Nodup) (hc : c ∈ clients) (hk : k < es.length)
    (hok_pre : ∀ j, j < k → out j c = SendOutcome.ok)
    (hfail : out k c = SendOutcome.closed)
    (hothers : ∀ j d, d ≠ c → out j d = SendOutcome.ok) :
    (drainQueue out ⟨clients, es, true⟩).1 = clients.filter (fun d => d ≠ c)
    ∧ deliveredTo c (drainQueue out ⟨clients, es, true⟩).2
        = (es.take k).map serialize
    ∧ (∀ d, d ∈ clients → d ≠ c →
        deliveredTo d (drainQueue out ⟨clients, es, true⟩).2 = es.map serialize) := by
  have h := drainGo_evict out c k hok_pre hfail hothers es 0 clients hn hc
    (Nat.zero_le k) (by omega)
  simpa [drainQueue] using h

/-- Witness: two clients, three events; client 0 is closed at event index
1 — it receives only the first event and is evicted, while client 1
receives all three and stays registered. -/
theorem send_failure_evicts_closed_witness :
    (drainQueue (fun i d => if i = 1 ∧ d = 0 then SendOutcome.closed else SendOutcome.ok)
        ⟨[0, 1], [[("type", JValue.str "a")], [("type", JValue.str "b")],
          [("type", JValue.str "c")]], true⟩).1 = [1]
    ∧ deliveredTo 0 (drainQueue
        (fun i d => if i = 1 ∧ d = 0 then SendOutcome.closed else SendOutcome.ok)
        ⟨[0, 1], [[("type", JValue.str "a")], [("type", JValue.str "b")],
          [("type", JValue.str "c")]], true⟩).2
      = ["\x7b\"type\": \"a\"\x7d"]
    ∧ deliveredTo 1 (drainQueue
        (fun i d => if i = 1 ∧ d = 0 then SendOutcome.closed else SendOutcome.ok)
        ⟨[0, 1], [[("type", JValue.str "a")], [("type", JValue.str "b")],
          [("type", JValue.str "c")]], true⟩).2
      = ["\x7b\"type\": \"a\"\x7d", "\x7b\"type\": \"b\"\x7d", "\x7b\"type\": \"c\"\x7d"] := by
  have h := send_failure_evicts_closed [0, 1]
    [[("type", JValue.str "a")], [("type", JValue.str "b")], [("type", JValue.str "c")]]
    0 1 (fun i d => if i = 1 ∧ d = 0 then SendOutcome.closed else SendOutcome.ok)
    (by decide) (by decide) (by decide)
    (by intro j hj; simp; omega)
    (by simp)
    (by intro j d hd; simp [hd])
  exact ⟨h.1, h.2.1, h.2.2 1 (by decide) (by decide)⟩
